import Mathlib

/-!
Shallow embedding of the odds aggregation and value detection engine of the
`python_bet` repository.

Embedded code:
* `BrasilOddsMonitor._calcular_melhores_odds` (src/bet_brasil.py, lines 172-215)
* `BrasilOddsMonitor._analisar_valor_odds`   (src/bet_brasil.py, lines 217-261)
* `BetMonitor.analyze_trend`                 (src/code_no_api.py, lines 95-111)

Modelling conventions:
* Decimal odds are modelled as exact rationals (`ℚ`).
* A Python dict from outcome keys to prices is an association list
  `List (String × ℚ)`; `dget` mirrors `dict.get` (first matching key, `none`
  when absent).
* Python truthiness of an optional number (`if resultado.get('away'):`) is
  `truthyQ`: `none` and `some 0` are falsy, every other number is truthy.
* Python values are dynamically typed, so a dict slot that could hold `None`
  is modelled with `Option`; the source initialises `margem_mercado` to the
  number `0`, i.e. `some 0`, and never writes `None` into it.
* The source formats `prob_ajustada` as a percent string before storing it in
  a value bet; the embedding keeps the exact rational value, which is what
  every claim quantifies over.
-/

namespace BetBrasil

/-- `dict.get k` on an association-list model of a Python dict:
the value at the first matching key, `none` when the key is absent. -/
def dget (d : List (String × ℚ)) (k : String) : Option ℚ :=
  (d.find? (fun p => p.1 == k)).map (fun p => p.2)

/-- Python truthiness of an optional number: `None` and `0` are falsy. -/
def truthyQ : Option ℚ → Bool
  | none => false
  | some q => q != 0

/-- One bookmaker entry as built by `_processar_jogos_brasileiros`:
its display name and its two market dicts (`resultado` keyed by
`home`/`draw`/`away`, `over_under` keyed by `Over 2.5`/`Under 2.5`). -/
structure CasaAposta where
  nome : String
  resultado : List (String × ℚ)
  over_under : List (String × ℚ)
deriving DecidableEq, Repr

/-- One per-outcome best-price record, `{'odd': ..., 'casa_aposta': ...}`. -/
structure Melhor where
  odd : ℚ
  casa_aposta : String
deriving DecidableEq, Repr

/-- The five-outcome dict built by `_calcular_melhores_odds`. -/
structure Melhores where
  casa : Melhor
  empate : Melhor
  fora : Melhor
  over_25 : Melhor
  under_25 : Melhor
deriving DecidableEq, Repr

/-- The initial sentinel dict: every outcome at `{'odd': 0, 'casa_aposta': ''}`. -/
def melhoresInit : Melhores :=
  ⟨⟨0, ""⟩, ⟨0, ""⟩, ⟨0, ""⟩, ⟨0, ""⟩, ⟨0, ""⟩⟩

/-- The key looked up by the guard on line 188 of src/bet_brasil.py:
`casa['nome'] == 'home' and 'home_team' or casa['nome'] == 'away' and
'away_team' or casa['nome']` evaluated with Python `and`/`or` semantics.
Unless the bookmaker is literally named `home` or `away`, this is the
bookmaker's own name. -/
def homeGuardKey (nome : String) : String :=
  if nome == "home" then "home_team"
  else if nome == "away" then "away_team"
  else nome

/-- One candidate step shared by every branch of `_calcular_melhores_odds`:
take the quote when it is truthy and strictly beats the current best
(`if odd and odd > melhores[...]['odd']`), otherwise keep the current best. -/
def melhor1 (v : Option ℚ) (cur : Melhor) (nome : String) : Melhor :=
  match v with
  | some q => if q ≠ 0 ∧ cur.odd < q then ⟨q, nome⟩ else cur
  | none => cur

/-- The body of the `for casa in casas_apostas` loop of
`_calcular_melhores_odds`.  The `casa` (home) branch is additionally guarded
by the line-188 condition `if resultado.get(homeGuardKey nome)`. -/
def stepCasa (m : Melhores) (casa : CasaAposta) : Melhores :=
  let r := casa.resultado
  let ou := casa.over_under
  { casa :=
      if truthyQ (dget r (homeGuardKey casa.nome)) then
        melhor1 (dget r "home") m.casa casa.nome
      else m.casa
    empate := melhor1 (dget r "draw") m.empate casa.nome
    fora := melhor1 (dget r "away") m.fora casa.nome
    over_25 := melhor1 (dget ou "Over 2.5") m.over_25 casa.nome
    under_25 := melhor1 (dget ou "Under 2.5") m.under_25 casa.nome }

/-- `_calcular_melhores_odds`: fold the per-bookmaker update over the input
order, starting from the all-sentinel dict. -/
def calcularMelhoresOdds (casas : List CasaAposta) : Melhores :=
  casas.foldl stepCasa melhoresInit

/-- One entry of the `value_bets` list built by `_analisar_valor_odds`.
`probabilidade` keeps the exact `prob_ajustada` value (the source stores it
formatted as a percent string). -/
structure ValueBet where
  mercado : String
  odd : ℚ
  probabilidade : ℚ
  casa_aposta : String
deriving DecidableEq, Repr

/-- The `analise` dict returned by `_analisar_valor_odds`.  `margem_mercado`
is an `Option ℚ` because a Python slot can hold `None`; the source only ever
stores numbers in it (`some`). -/
structure Analise where
  value_bets : List ValueBet
  margem_mercado : Option ℚ
  recomendacao : String
deriving DecidableEq, Repr

/-- `odds_validas`: the raw implied probabilities `1/odd` of the three
match-result outcomes whose best odd is `> 0`, in `casa, empate, fora` order. -/
def oddsValidas (m : Melhores) : List ℚ :=
  (([m.casa, m.empate, m.fora]).filter (fun b => 0 < b.odd)).map (fun b => 1 / b.odd)

/-- One iteration of the value-bet loop in `_analisar_valor_odds`: for a
market with best record `b`, if `odd > 0` and the adjusted probability
`(1/odd) / S` exceeds `0.6`, emit the value-bet entry, else nothing. -/
def valueBetEntry (nomeMercado : String) (b : Melhor) (S : ℚ) : List ValueBet :=
  if 0 < b.odd then
    let prob_implicita := 1 / b.odd
    let prob_ajustada := prob_implicita / S
    if (0.6 : ℚ) < prob_ajustada then
      [⟨nomeMercado, b.odd, prob_ajustada, b.casa_aposta⟩]
    else []
  else []

/-- The `value_bets` list of `_analisar_valor_odds`: only built inside the
`if odds_validas:` block, in market order `casa, empate, fora`. -/
def valueBets (m : Melhores) : List ValueBet :=
  if (oddsValidas m).isEmpty then []
  else
    let S := (oddsValidas m).sum
    valueBetEntry "Vitória Casa" m.casa S
      ++ valueBetEntry "Empate" m.empate S
      ++ valueBetEntry "Vitória Fora" m.fora S

/-- The `margem_mercado` slot of `_analisar_valor_odds`: initialised to the
number `0` and overwritten with `(sum(odds_validas) - 1) * 100` only when
`odds_validas` is non-empty.  `None` is never stored. -/
def margemMercado (m : Melhores) : Option ℚ :=
  if (oddsValidas m).isEmpty then some 0
  else some (((oddsValidas m).sum - 1) * 100)

/-- `_analisar_valor_odds`: assemble the analysis dict.  The
recommendation string depends only on whether value bets were found. -/
def analisarValorOdds (m : Melhores) : Analise :=
  let vbs := valueBets m
  { value_bets := vbs
    margem_mercado := margemMercado m
    recomendacao :=
      if vbs.isEmpty then "Aguardando melhores oportunidades"
      else toString vbs.length ++ " VALUE BET(S) IDENTIFICADO(S)" }

/-- The normalised (adjusted) probability the source computes for a
match-result market with best record `b`: `prob_implicita / sum(odds_validas)`. -/
def probAjustada (m : Melhores) (b : Melhor) : ℚ :=
  (1 / b.odd) / (oddsValidas m).sum

/-- The five quote selectors of `_calcular_melhores_odds`, one per outcome of
the fixed universe: the dict lookup each branch of the loop body performs. -/
def selHome (c : CasaAposta) : Option ℚ := dget c.resultado "home"

/-- Quote selector for the draw outcome. -/
def selDraw (c : CasaAposta) : Option ℚ := dget c.resultado "draw"

/-- Quote selector for the away outcome. -/
def selAway (c : CasaAposta) : Option ℚ := dget c.resultado "away"

/-- Quote selector for the Over 2.5 outcome. -/
def selOver (c : CasaAposta) : Option ℚ := dget c.over_under "Over 2.5"

/-- Quote selector for the Under 2.5 outcome. -/
def selUnder (c : CasaAposta) : Option ℚ := dget c.over_under "Under 2.5"

/-- A one-bookmaker quote set that quotes only the home outcome, at 2.0. -/
def casasSoHome : List CasaAposta := [⟨"BookA", [("home", 2)], []⟩]

/-- Two bookmakers quoting the same maximal home price 2.0. -/
def casasHomeEmpatado : List CasaAposta :=
  [⟨"BookA", [("home", 2)], []⟩, ⟨"BookB", [("home", 2)], []⟩]

/-- A one-bookmaker quote set whose only quote is an away price of 1/2,
an invalid (≤ 1.0) decimal odd. -/
def casasAwayMeio : List CasaAposta := [⟨"BookA", [("away", 1/2)], []⟩]

/-- A one-bookmaker quote set that quotes only the draw outcome, at 3.0. -/
def casasSoDraw : List CasaAposta := [⟨"BookA", [("draw", 3)], []⟩]

/-- A best-price dict with the three match-result outcomes priced at
2, 3 and 6: the raw implied probabilities sum to exactly 1. -/
def melhoresExemplo : Melhores :=
  ⟨⟨2, "BookA"⟩, ⟨3, "BookB"⟩, ⟨6, "BookC"⟩, ⟨0, ""⟩, ⟨0, ""⟩⟩

/-- A best-price dict with a heavy home favourite at 1.2 (adjusted
probability 4/5, above the 0.6 threshold). -/
def melhoresFavorito : Melhores :=
  ⟨⟨6/5, "BookA"⟩, ⟨8, "BookB"⟩, ⟨12, "BookC"⟩, ⟨0, ""⟩, ⟨0, ""⟩⟩

end BetBrasil

namespace CodeNoApi

/-- One scraped odds snapshot (`odds_data` of src/code_no_api.py): the three
match-result prices, each possibly absent.  The timestamp field plays no role
in `analyze_trend` and is omitted. -/
structure Odds where
  home : Option ℚ
  draw : Option ℚ
  away : Option ℚ
deriving DecidableEq, Repr

/-- `odds.get(market)` for the three market keys iterated by `analyze_trend`. -/
def marketGet (o : Odds) (market : String) : Option ℚ :=
  if market == "home" then o.home
  else if market == "draw" then o.draw
  else if market == "away" then o.away
  else none

/-- The directional label printed by `analyze_trend`
(`"↑"` / `"↓"` / `"→"`). -/
inductive Trend where
  | up
  | down
  | flat
deriving DecidableEq, Repr

/-- `trend = "↑" if change > 0 else "↓" if change < 0 else "→"`. -/
def trendOf (change : ℚ) : Trend :=
  if 0 < change then Trend.up
  else if change < 0 then Trend.down
  else Trend.flat

/-- Python truthiness of an optional price, as in
`if current.get(market) and previous.get(market):`. -/
def truthy : Option ℚ → Bool
  | none => false
  | some q => q != 0

/-- One iteration of the `for market in ['home', 'draw', 'away']` loop of
`analyze_trend`: when the price is truthy in both snapshots
(`if current.get(market) and previous.get(market):`) report
`(market, change, direction)` with `change = current - previous`; otherwise
nothing. -/
def trendEntry (current previous : Odds) (market : String) :
    Option (String × ℚ × Trend) :=
  if truthy (marketGet current market) && truthy (marketGet previous market) then
    match marketGet current market, marketGet previous market with
    | some c, some p => some (market, c - p, trendOf (c - p))
    | _, _ => none
  else none

/-- `analyze_trend` on the last two snapshots: the per-market reports, in the
source's market order; markets skipped by the guard are absent. -/
def analyzeTrend (current previous : Odds) : List (String × ℚ × Trend) :=
  (["home", "draw", "away"]).filterMap (trendEntry current previous)

/-- Look one market up in a trend report. -/
def lookupTrend (report : List (String × ℚ × Trend)) (market : String) :
    Option (ℚ × Trend) :=
  (report.find? (fun e => e.1 == market)).map (fun e => e.2)

/-- The §3 data-model invariant on a snapshot: every present price is a
legal decimal odd, strictly greater than 1. -/
def ValidOdds (o : Odds) : Prop :=
  (∀ q, o.home = some q → 1 < q) ∧
  (∀ q, o.draw = some q → 1 < q) ∧
  (∀ q, o.away = some q → 1 < q)

/-- A current snapshot: home 2.0, draw 3.0, away missing. -/
def snapAtual : Odds := ⟨some 2, some 3, none⟩

/-- A previous snapshot: home 2.5, draw 3.0, away 4.0. -/
def snapAnterior : Odds := ⟨some (5/2), some 3, some 4⟩

end CodeNoApi

/-! ## Helper lemmas about the aggregator -/

namespace BetBrasil

theorem melhor1_cases (v : Option ℚ) (cur : Melhor) (n : String) :
    melhor1 v cur n = cur ∨
      ∃ q, v = some q ∧ q ≠ 0 ∧ cur.odd < q ∧ melhor1 v cur n = ⟨q, n⟩ := by
  match v with
  | none => exact Or.inl rfl
  | some q =>
      by_cases h : q ≠ 0 ∧ cur.odd < q
      · refine Or.inr ⟨q, rfl, h.1, h.2, ?_⟩
        show (if q ≠ 0 ∧ cur.odd < q then (⟨q, n⟩ : Melhor) else cur) = ⟨q, n⟩
        rw [if_pos h]
      · refine Or.inl ?_
        show (if q ≠ 0 ∧ cur.odd < q then (⟨q, n⟩ : Melhor) else cur) = cur
        rw [if_neg h]

theorem stepCasa_casa (m : Melhores) (c : CasaAposta) :
    (stepCasa m c).casa =
      (if truthyQ (dget c.resultado (homeGuardKey c.nome)) then
        melhor1 (dget c.resultado "home") m.casa c.nome
      else m.casa) := rfl

theorem stepCasa_empate (m : Melhores) (c : CasaAposta) :
    (stepCasa m c).empate = melhor1 (dget c.resultado "draw") m.empate c.nome := rfl

theorem stepCasa_fora (m : Melhores) (c : CasaAposta) :
    (stepCasa m c).fora = melhor1 (dget c.resultado "away") m.fora c.nome := rfl

theorem stepCasa_over (m : Melhores) (c : CasaAposta) :
    (stepCasa m c).over_25 = melhor1 (dget c.over_under "Over 2.5") m.over_25 c.nome := rfl

theorem stepCasa_under (m : Melhores) (c : CasaAposta) :
    (stepCasa m c).under_25 = melhor1 (dget c.over_under "Under 2.5") m.under_25 c.nome := rfl

theorem stepCasa_casa_spec (m : Melhores) (c : CasaAposta) :
    (stepCasa m c).casa = m.casa ∨
      ∃ q, selHome c = some q ∧ q ≠ 0 ∧ m.casa.odd < q ∧ (stepCasa m c).casa = ⟨q, c.nome⟩ := by
  rw [stepCasa_casa]
  by_cases hg : truthyQ (dget c.resultado (homeGuardKey c.nome))
  · rw [if_pos hg]; exact melhor1_cases _ _ _
  · rw [if_neg hg]; exact Or.inl rfl

theorem stepCasa_empate_spec (m : Melhores) (c : CasaAposta) :
    (stepCasa m c).empate = m.empate ∨
      ∃ q, selDraw c = some q ∧ q ≠ 0 ∧ m.empate.odd < q ∧ (stepCasa m c).empate = ⟨q, c.nome⟩ := by
  rw [stepCasa_empate]; exact melhor1_cases _ _ _

theorem stepCasa_fora_spec (m : Melhores) (c : CasaAposta) :
    (stepCasa m c).fora = m.fora ∨
      ∃ q, selAway c = some q ∧ q ≠ 0 ∧ m.fora.odd < q ∧ (stepCasa m c).fora = ⟨q, c.nome⟩ := by
  rw [stepCasa_fora]; exact melhor1_cases _ _ _

theorem stepCasa_over_spec (m : Melhores) (c : CasaAposta) :
    (stepCasa m c).over_25 = m.over_25 ∨
      ∃ q, selOver c = some q ∧ q ≠ 0 ∧ m.over_25.odd < q ∧ (stepCasa m c).over_25 = ⟨q, c.nome⟩ := by
  rw [stepCasa_over]; exact melhor1_cases _ _ _

theorem stepCasa_under_spec (m : Melhores) (c : CasaAposta) :
    (stepCasa m c).under_25 = m.under_25 ∨
      ∃ q, selUnder c = some q ∧ q ≠ 0 ∧ m.under_25.odd < q ∧ (stepCasa m c).under_25 = ⟨q, c.nome⟩ := by
  rw [stepCasa_under]; exact melhor1_cases _ _ _

theorem foldl_best_spec (field : Melhores → Melhor) (sel : CasaAposta → Option ℚ)
    (hstep : ∀ m c, field (stepCasa m c) = field m ∨
      ∃ q, sel c = some q ∧ q ≠ 0 ∧ (field m).odd < q ∧ field (stepCasa m c) = ⟨q, c.nome⟩)
    (casas : List CasaAposta) :
    ∀ init : Melhores,
      field (casas.foldl stepCasa init) = field init ∨
        ((field init).odd < (field (casas.foldl stepCasa init)).odd ∧
          ∃ c ∈ casas, c.nome = (field (casas.foldl stepCasa init)).casa_aposta ∧
            sel c = some (field (casas.foldl stepCasa init)).odd) := by
  induction casas with
  | nil => exact fun init => Or.inl rfl
  | cons c cs ih =>
      intro init
      rw [List.foldl_cons]
      rcases hstep init c with h | ⟨q, hsel, hq0, hlt, hupd⟩
      · rcases ih (stepCasa init c) with h2 | ⟨h2a, c2, hc2, hn2, hs2⟩
        · exact Or.inl (h2.trans h)
        · refine Or.inr ⟨?_, c2, List.mem_cons_of_mem c hc2, hn2, hs2⟩
          rw [← h]; exact h2a
      · rcases ih (stepCasa init c) with h2 | ⟨h2a, c2, hc2, hn2, hs2⟩
        · refine Or.inr ⟨?_, c, List.mem_cons_self c cs, ?_, ?_⟩
          · rw [h2, hupd]; exact hlt
          · rw [h2, hupd]
          · rw [h2, hupd]; exact hsel
        · refine Or.inr ⟨?_, c2, List.mem_cons_of_mem c hc2, hn2, hs2⟩
          calc (field init).odd < q := hlt
            _ = (field (stepCasa init c)).odd := by rw [hupd]
            _ < _ := h2a

theorem calcular_spec (field : Melhores → Melhor) (sel : CasaAposta → Option ℚ)
    (hstep : ∀ m c, field (stepCasa m c) = field m ∨
      ∃ q, sel c = some q ∧ q ≠ 0 ∧ (field m).odd < q ∧ field (stepCasa m c) = ⟨q, c.nome⟩)
    (hinit : field melhoresInit = ⟨0, ""⟩) (casas : List CasaAposta) :
    field (calcularMelhoresOdds casas) = ⟨0, ""⟩ ∨
      (0 < (field (calcularMelhoresOdds casas)).odd ∧
        ∃ c ∈ casas, c.nome = (field (calcularMelhoresOdds casas)).casa_aposta ∧
          sel c = some (field (calcularMelhoresOdds casas)).odd) := by
  have h := foldl_best_spec field sel hstep casas melhoresInit
  rw [hinit] at h
  simpa [calcularMelhoresOdds] using h

end BetBrasil

/-! ## Helper lemmas about the normalizer and value detector -/

namespace BetBrasil

theorem oddsValidas_sum_eq (m : Melhores) :
    (oddsValidas m).sum =
      (if 0 < m.casa.odd then 1 / m.casa.odd else 0) +
        (if 0 < m.empate.odd then 1 / m.empate.odd else 0) +
        (if 0 < m.fora.odd then 1 / m.fora.odd else 0) := by
  unfold oddsValidas
  by_cases h1 : 0 < m.casa.odd <;> by_cases h2 : 0 < m.empate.odd <;>
    by_cases h3 : 0 < m.fora.odd <;>
    simp [List.filter_cons, h1, h2, h3] <;> ring

theorem oddsValidas_isEmpty_iff (m : Melhores) :
    (oddsValidas m).isEmpty = true ↔
      ¬(0 < m.casa.odd) ∧ ¬(0 < m.empate.odd) ∧ ¬(0 < m.fora.odd) := by
  unfold oddsValidas
  by_cases h1 : 0 < m.casa.odd <;> by_cases h2 : 0 < m.empate.odd <;>
    by_cases h3 : 0 < m.fora.odd <;>
    simp [List.filter_cons, h1, h2, h3]

theorem oddsValidas_sum_pos (m : Melhores) (h : (oddsValidas m).isEmpty = false) :
    0 < (oddsValidas m).sum := by
  apply List.sum_pos
  · intro x hx
    unfold oddsValidas at hx
    simp only [List.mem_map, List.mem_filter] at hx
    obtain ⟨b, ⟨hmem, hpos⟩, rfl⟩ := hx
    have hb : 0 < b.odd := by simpa using hpos
    positivity
  · exact List.isEmpty_eq_false.mp h

theorem valueBetEntry_length (n : String) (b : Melhor) (S : ℚ) :
    (valueBetEntry n b S).length =
      if 0 < b.odd ∧ (0.6 : ℚ) < (1 / b.odd) / S then 1 else 0 := by
  unfold valueBetEntry
  split_ifs with h1 h2 <;> simp_all

theorem exists_valueBetEntry (n target : String) (b : Melhor) (S : ℚ) :
    (∃ vb ∈ valueBetEntry n b S, vb.mercado = target) ↔
      n = target ∧ 0 < b.odd ∧ (0.6 : ℚ) < (1 / b.odd) / S := by
  unfold valueBetEntry
  split_ifs with h1 h2 <;> simp_all <;> aesop

theorem analisarValorOdds_value_bets (m : Melhores) :
    (analisarValorOdds m).value_bets = valueBets m := rfl

theorem analisarValorOdds_margem (m : Melhores) :
    (analisarValorOdds m).margem_mercado = margemMercado m := rfl

theorem valueBets_eq (m : Melhores) (h : (oddsValidas m).isEmpty = false) :
    valueBets m =
      valueBetEntry "Vitória Casa" m.casa ((oddsValidas m).sum) ++
        valueBetEntry "Empate" m.empate ((oddsValidas m).sum) ++
        valueBetEntry "Vitória Fora" m.fora ((oddsValidas m).sum) := by
  simp [valueBets, h]

theorem exists_mem_append3 {α : Type} (l1 l2 l3 : List α) (p : α → Prop) :
    (∃ x ∈ l1 ++ l2 ++ l3, p x) ↔
      (∃ x ∈ l1, p x) ∨ (∃ x ∈ l2, p x) ∨ (∃ x ∈ l3, p x) := by
  constructor
  · rintro ⟨x, hm, hp⟩
    rcases List.mem_append.mp hm with h12 | h3
    · rcases List.mem_append.mp h12 with h1 | h2
      · exact Or.inl ⟨x, h1, hp⟩
      · exact Or.inr (Or.inl ⟨x, h2, hp⟩)
    · exact Or.inr (Or.inr ⟨x, h3, hp⟩)
  · rintro (⟨x, hm, hp⟩ | ⟨x, hm, hp⟩ | ⟨x, hm, hp⟩)
    · exact ⟨x, List.mem_append_left _ (List.mem_append_left _ hm), hp⟩
    · exact ⟨x, List.mem_append_left _ (List.mem_append_right _ hm), hp⟩
    · exact ⟨x, List.mem_append_right _ hm, hp⟩

end BetBrasil

/-! ## Helper lemmas about the trend comparator -/

namespace CodeNoApi

theorem trendEntry_key (cur prev : Odds) (market : String) (e : String × ℚ × Trend)
    (h : trendEntry cur prev market = some e) : e.1 = market := by
  unfold trendEntry at h
  split at h
  · split at h
    · cases h; rfl
    · exact Option.noConfusion h
  · exact Option.noConfusion h

theorem analyzeTrend_eq (cur prev : Odds) :
    analyzeTrend cur prev =
      (trendEntry cur prev "home").toList ++ (trendEntry cur prev "draw").toList ++
        (trendEntry cur prev "away").toList := by
  unfold analyzeTrend
  rcases h1 : trendEntry cur prev "home" with _ | e1 <;>
    rcases h2 : trendEntry cur prev "draw" with _ | e2 <;>
      rcases h3 : trendEntry cur prev "away" with _ | e3 <;>
        simp [List.filterMap_cons, h1, h2, h3]

theorem lookupTrend_eq (cur prev : Odds) (market : String)
    (hm : market ∈ (["home", "draw", "away"] : List String)) :
    lookupTrend (analyzeTrend cur prev) market =
      (trendEntry cur prev market).map (fun e => e.2) := by
  rw [analyzeTrend_eq]
  fin_cases hm <;>
    rcases h1 : trendEntry cur prev "home" with _ | e1 <;>
      rcases h2 : trendEntry cur prev "draw" with _ | e2 <;>
        rcases h3 : trendEntry cur prev "away" with _ | e3 <;>
          simp_all +decide [lookupTrend, List.find?, Option.toList,
            trendEntry_key cur prev "home", trendEntry_key cur prev "draw",
            trendEntry_key cur prev "away"]

theorem trendOf_spec (d : ℚ) :
    (trendOf d = Trend.up ↔ 0 < d) ∧ (trendOf d = Trend.down ↔ d < 0) ∧
      (trendOf d = Trend.flat ↔ d = 0) := by
  unfold trendOf
  rcases lt_trichotomy 0 d with h | h | h
  · simp [h, not_lt.mpr h.le, h.ne.symm]
  · simp [← h]
  · simp [h, not_lt.mpr h.le, h.ne]

theorem valid_get (o : Odds) (ho : ValidOdds o) (market : String)
    (hm : market ∈ (["home", "draw", "away"] : List String)) (q : ℚ)
    (h : marketGet o market = some q) : 1 < q := by
  obtain ⟨h1, h2, h3⟩ := ho
  fin_cases hm <;> simp +decide [marketGet] at h
  · exact h1 q h
  · exact h2 q h
  · exact h3 q h

end CodeNoApi

/-! ## The claims -/

namespace BetBrasil

/-- Claim C1: for every outcome with at least one quote the BestPrice should
equal the maximum quoted price with a bookmaker that offered it.  The code
violates this for the home outcome: the line-188 guard looks the bookmaker's
own name up in the result dict, so an ordinary home quote (here 2.0 from
BookA, visible to `selHome`) is dropped and the sentinel `0`/`''` survives. -/
theorem c1_home_quote_dropped :
    selHome ⟨"BookA", [("home", 2)], []⟩ = some 2 ∧
      (calcularMelhoresOdds casasSoHome).casa = ⟨0, ""⟩ ∧
      (calcularMelhoresOdds casasSoHome).casa.odd ≠ 2 := by
  decide

/-- Claim C2, counterexample: on the all-unpriced input the returned market
margin is the number `0`, not null (`none`). -/
theorem c2_margin_is_zero_not_null :
    (analisarValorOdds melhoresInit).margem_mercado = some 0 ∧
      (analisarValorOdds melhoresInit).margem_mercado ≠ none := by
  decide

/-- Claim C2 (amended): when no match-result outcome is priced the engine
returns no value bets and leaves `margem_mercado` at its numeric initial
value `0` (never null), and the normalising division is guarded: whenever
`odds_validas` is non-empty its sum is strictly positive, so no division by
zero ever happens. -/
theorem c2_unpriced_keeps_zero_margin_and_guards_division :
    (∀ m : Melhores, m.casa.odd ≤ 0 → m.empate.odd ≤ 0 → m.fora.odd ≤ 0 →
      analisarValorOdds m = ⟨[], some 0, "Aguardando melhores oportunidades"⟩) ∧
      (∀ m : Melhores, (oddsValidas m).isEmpty = false → 0 < (oddsValidas m).sum) := by
  constructor
  · intro m h1 h2 h3
    have hnil : oddsValidas m = [] := by
      unfold oddsValidas
      simp [List.filter_cons, not_lt.mpr h1, not_lt.mpr h2, not_lt.mpr h3]
    simp [analisarValorOdds, valueBets, margemMercado, hnil]
  · exact fun m h => oddsValidas_sum_pos m h

/-- Witness for C2's amended theorem at concrete inputs. -/
theorem c2_unpriced_witness :
    analisarValorOdds melhoresInit = ⟨[], some 0, "Aguardando melhores oportunidades"⟩ ∧
      0 < (oddsValidas melhoresExemplo).sum :=
  ⟨c2_unpriced_keeps_zero_margin_and_guards_division.1 melhoresInit
      (by decide) (by decide) (by decide),
    c2_unpriced_keeps_zero_margin_and_guards_division.2 melhoresExemplo (by decide)⟩

/-- Claim C3, counterexample: an outcome with no quote at all (here the away
outcome of a set that only quotes the draw) is exposed with price `0` and
bookmaker `""`, not with nulls. -/
theorem c3_sentinel_exposed :
    (calcularMelhoresOdds casasSoDraw).fora.odd = 0 ∧
      (calcularMelhoresOdds casasSoDraw).fora.casa_aposta = "" := by
  decide

/-- Claim C3 (amended): for every outcome of the universe with no quote in
the set, the exposed BestPrice record keeps the internal sentinel — price `0`
and bookmaker `''` — rather than nulls; downstream consumers recognise it
via `odd > 0` checks. -/
theorem c3_unquoted_outcome_keeps_sentinel :
    ∀ casas : List CasaAposta,
      ((∀ c ∈ casas, selHome c = none) → (calcularMelhoresOdds casas).casa = ⟨0, ""⟩) ∧
      ((∀ c ∈ casas, selDraw c = none) → (calcularMelhoresOdds casas).empate = ⟨0, ""⟩) ∧
      ((∀ c ∈ casas, selAway c = none) → (calcularMelhoresOdds casas).fora = ⟨0, ""⟩) ∧
      ((∀ c ∈ casas, selOver c = none) → (calcularMelhoresOdds casas).over_25 = ⟨0, ""⟩) ∧
      ((∀ c ∈ casas, selUnder c = none) → (calcularMelhoresOdds casas).under_25 = ⟨0, ""⟩) := by
  intro casas
  refine ⟨fun hall => ?_, fun hall => ?_, fun hall => ?_, fun hall => ?_, fun hall => ?_⟩
  · rcases calcular_spec (fun m => m.casa) selHome stepCasa_casa_spec rfl casas with
      h | ⟨hpos, c, hc, hn, hs⟩
    · exact h
    · rw [hall c hc] at hs; exact Option.noConfusion hs
  · rcases calcular_spec (fun m => m.empate) selDraw stepCasa_empate_spec rfl casas with
      h | ⟨hpos, c, hc, hn, hs⟩
    · exact h
    · rw [hall c hc] at hs; exact Option.noConfusion hs
  · rcases calcular_spec (fun m => m.fora) selAway stepCasa_fora_spec rfl casas with
      h | ⟨hpos, c, hc, hn, hs⟩
    · exact h
    · rw [hall c hc] at hs; exact Option.noConfusion hs
  · rcases calcular_spec (fun m => m.over_25) selOver stepCasa_over_spec rfl casas with
      h | ⟨hpos, c, hc, hn, hs⟩
    · exact h
    · rw [hall c hc] at hs; exact Option.noConfusion hs
  · rcases calcular_spec (fun m => m.under_25) selUnder stepCasa_under_spec rfl casas with
      h | ⟨hpos, c, hc, hn, hs⟩
    · exact h
    · rw [hall c hc] at hs; exact Option.noConfusion hs

/-- Witness for C3's amended theorem: the away outcome of a set that only
quotes the draw keeps the sentinel record. -/
theorem c3_unquoted_witness :
    (calcularMelhoresOdds casasSoDraw).fora = ⟨0, ""⟩ :=
  (c3_unquoted_outcome_keeps_sentinel casasSoDraw).2.2.1 (by decide)

end BetBrasil

namespace BetBrasil

/-- Claim C4: when all three match-result outcomes are priced, `odds_validas`
sums the three raw implied probabilities `1/p`, and the three adjusted
probabilities `(1/p)/S` sum to exactly 1 over exact rational arithmetic. -/
theorem c4_normalized_probabilities_sum_to_one (m : Melhores)
    (h1 : 0 < m.casa.odd) (h2 : 0 < m.empate.odd) (h3 : 0 < m.fora.odd) :
    (oddsValidas m).sum = 1 / m.casa.odd + 1 / m.empate.odd + 1 / m.fora.odd ∧
      probAjustada m m.casa + probAjustada m m.empate + probAjustada m m.fora = 1 := by
  have hsum : (oddsValidas m).sum =
      1 / m.casa.odd + 1 / m.empate.odd + 1 / m.fora.odd := by
    rw [oddsValidas_sum_eq, if_pos h1, if_pos h2, if_pos h3]
  refine ⟨hsum, ?_⟩
  have ha := one_div_pos.mpr h1
  have hb := one_div_pos.mpr h2
  have hcpos := one_div_pos.mpr h3
  have hS : (0 : ℚ) < (oddsValidas m).sum := by rw [hsum]; linarith
  unfold probAjustada
  rw [div_add_div_same, div_add_div_same, ← hsum]
  exact div_self hS.ne'

/-- Witness for C4 at best odds 2, 3 and 6 (a fair book). -/
theorem c4_sum_witness :
    (0 < melhoresExemplo.casa.odd ∧ 0 < melhoresExemplo.empate.odd ∧
        0 < melhoresExemplo.fora.odd) ∧
      probAjustada melhoresExemplo melhoresExemplo.casa +
          probAjustada melhoresExemplo melhoresExemplo.empate +
          probAjustada melhoresExemplo melhoresExemplo.fora = 1 :=
  ⟨⟨by decide, by decide, by decide⟩,
    (c4_normalized_probabilities_sum_to_one melhoresExemplo
      (by decide) (by decide) (by decide)).2⟩

/-- Claim C5: a match-result outcome contributes a value-bet entry exactly
when it is priced and its adjusted probability strictly exceeds the 0.6
threshold; in particular nothing at or below the threshold is ever returned,
and the empty list is the normal result otherwise. -/
theorem c5_value_bet_iff_above_threshold (m : Melhores) :
    ((∃ vb ∈ (analisarValorOdds m).value_bets, vb.mercado = "Vitória Casa") ↔
        0 < m.casa.odd ∧ (0.6 : ℚ) < probAjustada m m.casa) ∧
      ((∃ vb ∈ (analisarValorOdds m).value_bets, vb.mercado = "Empate") ↔
        0 < m.empate.odd ∧ (0.6 : ℚ) < probAjustada m m.empate) ∧
      ((∃ vb ∈ (analisarValorOdds m).value_bets, vb.mercado = "Vitória Fora") ↔
        0 < m.fora.odd ∧ (0.6 : ℚ) < probAjustada m m.fora) := by
  simp only [analisarValorOdds_value_bets]
  by_cases h : (oddsValidas m).isEmpty
  · obtain ⟨h1, h2, h3⟩ := (oddsValidas_isEmpty_iff m).mp h
    have hv : valueBets m = [] := by simp [valueBets, h]
    simp only [hv]
    simp [h1, h2, h3]
  · have h' : (oddsValidas m).isEmpty = false := by simpa using h
    simp only [valueBets_eq m h', exists_mem_append3, exists_valueBetEntry]
    refine ⟨?_, ?_, ?_⟩ <;> simp +decide [probAjustada]

/-- Claim C6, counterexample: the single away quote 1/2 — an invalid
(≤ 1.0) decimal odd — is not rejected: it becomes the BestPrice winner. -/
theorem c6_sub_one_price_becomes_winner :
    (calcularMelhoresOdds casasAwayMeio).fora = ⟨1/2, "BookA"⟩ ∧ (1/2 : ℚ) ≤ 1 := by
  constructor
  · norm_num [calcularMelhoresOdds, casasAwayMeio, stepCasa, melhor1, dget, melhoresInit,
      homeGuardKey, truthyQ, List.find?, List.foldl]
  · norm_num

/-- Claim C6 (amended): the aggregator never validates the `> 1.0`
invariant — a positive quote `≤ 1.0` can win — but every non-sentinel winner
does carry a strictly positive price genuinely quoted by the recorded
bookmaker (zero prices are skipped by truthiness, negative prices never beat
the running maximum), and the rest of the set is aggregated regardless. -/
theorem c6_winner_is_positive_quoted_price :
    ∀ casas : List CasaAposta,
      ((calcularMelhoresOdds casas).casa = ⟨0, ""⟩ ∨
        (0 < (calcularMelhoresOdds casas).casa.odd ∧
          ∃ c ∈ casas, c.nome = (calcularMelhoresOdds casas).casa.casa_aposta ∧
            selHome c = some (calcularMelhoresOdds casas).casa.odd)) ∧
      ((calcularMelhoresOdds casas).empate = ⟨0, ""⟩ ∨
        (0 < (calcularMelhoresOdds casas).empate.odd ∧
          ∃ c ∈ casas, c.nome = (calcularMelhoresOdds casas).empate.casa_aposta ∧
            selDraw c = some (calcularMelhoresOdds casas).empate.odd)) ∧
      ((calcularMelhoresOdds casas).fora = ⟨0, ""⟩ ∨
        (0 < (calcularMelhoresOdds casas).fora.odd ∧
          ∃ c ∈ casas, c.nome = (calcularMelhoresOdds casas).fora.casa_aposta ∧
            selAway c = some (calcularMelhoresOdds casas).fora.odd)) ∧
      ((calcularMelhoresOdds casas).over_25 = ⟨0, ""⟩ ∨
        (0 < (calcularMelhoresOdds casas).over_25.odd ∧
          ∃ c ∈ casas, c.nome = (calcularMelhoresOdds casas).over_25.casa_aposta ∧
            selOver c = some (calcularMelhoresOdds casas).over_25.odd)) ∧
      ((calcularMelhoresOdds casas).under_25 = ⟨0, ""⟩ ∨
        (0 < (calcularMelhoresOdds casas).under_25.odd ∧
          ∃ c ∈ casas, c.nome = (calcularMelhoresOdds casas).under_25.casa_aposta ∧
            selUnder c = some (calcularMelhoresOdds casas).under_25.odd)) :=
  fun casas =>
    ⟨calcular_spec (fun m => m.casa) selHome stepCasa_casa_spec rfl casas,
      calcular_spec (fun m => m.empate) selDraw stepCasa_empate_spec rfl casas,
      calcular_spec (fun m => m.fora) selAway stepCasa_fora_spec rfl casas,
      calcular_spec (fun m => m.over_25) selOver stepCasa_over_spec rfl casas,
      calcular_spec (fun m => m.under_25) selUnder stepCasa_under_spec rfl casas⟩

/-- Claim C8: on a home-price tie the first bookmaker in input order should
win.  The code instead selects nobody for the home outcome (the line-188
guard fails for both bookmakers), so the sentinel survives and in particular
the first bookmaker is not recorded. -/
theorem c8_home_tie_selects_no_bookmaker :
    (calcularMelhoresOdds casasHomeEmpatado).casa = ⟨0, ""⟩ ∧
      (calcularMelhoresOdds casasHomeEmpatado).casa.casa_aposta ≠ "BookA" := by
  decide

/-- Claim C9, counterexample: on the all-unpriced input the margin is the
number 0 although the sum of raw implied probabilities is 0, not 1 — so
"margin is 0 exactly when the sum is 1" fails as a biconditional. -/
theorem c9_zero_margin_without_unit_sum :
    (analisarValorOdds melhoresInit).margem_mercado = some 0 ∧
      (oddsValidas melhoresInit).sum ≠ 1 := by
  decide

/-- Claim C9 (amended): whenever at least one outcome is priced the margin is
`(S - 1) * 100` for `S = Σ 1/p`; that margin is 0 iff `S = 1` and is positive
whenever `S > 1`.  (With no priced outcome the margin keeps its initial 0
although `S = 0`.) -/
theorem c9_margin_zero_iff_unit_sum_when_priced (m : Melhores)
    (h : (oddsValidas m).isEmpty = false) :
    (analisarValorOdds m).margem_mercado = some (((oddsValidas m).sum - 1) * 100) ∧
      (((oddsValidas m).sum - 1) * 100 = 0 ↔ (oddsValidas m).sum = 1) ∧
      (1 < (oddsValidas m).sum → 0 < ((oddsValidas m).sum - 1) * 100) := by
  refine ⟨?_, ?_, ?_⟩
  · simp [analisarValorOdds, margemMercado, h]
  · constructor
    · intro hz
      rcases mul_eq_zero.mp hz with h' | h'
      · exact sub_eq_zero.mp h'
      · norm_num at h'
    · intro h1
      rw [h1]
      norm_num
  · intro hlt
    have hsub : (0 : ℚ) < (oddsValidas m).sum - 1 := by linarith
    exact mul_pos hsub (by norm_num)

/-- Witness for C9's amended theorem at best odds 2, 3 and 6. -/
theorem c9_margin_witness :
    (oddsValidas melhoresExemplo).isEmpty = false ∧
      ((analisarValorOdds melhoresExemplo).margem_mercado =
          some (((oddsValidas melhoresExemplo).sum - 1) * 100) ∧
        (((oddsValidas melhoresExemplo).sum - 1) * 100 = 0 ↔
          (oddsValidas melhoresExemplo).sum = 1) ∧
        (1 < (oddsValidas melhoresExemplo).sum →
          0 < ((oddsValidas melhoresExemplo).sum - 1) * 100)) :=
  ⟨by decide, c9_margin_zero_iff_unit_sum_when_priced melhoresExemplo (by decide)⟩

/-- Claim C10: the value-bet list never holds more than one entry, because
each entry needs an adjusted probability above 0.6 and the adjusted
probabilities of the priced outcomes sum to 1. -/
theorem c10_at_most_one_value_bet (m : Melhores) :
    (analisarValorOdds m).value_bets.length ≤ 1 := by
  rw [analisarValorOdds_value_bets]
  by_cases h : (oddsValidas m).isEmpty
  · simp [valueBets, h]
  · have h' : (oddsValidas m).isEmpty = false := by simpa using h
    have hS : 0 < (oddsValidas m).sum := oddsValidas_sum_pos m h'
    rw [valueBets_eq m h', List.length_append, List.length_append,
      valueBetEntry_length, valueBetEntry_length, valueBetEntry_length]
    have hpair : ∀ x y t : ℚ, 0 ≤ t → (oddsValidas m).sum = x + y + t →
        (0.6 : ℚ) < x / (oddsValidas m).sum →
        (0.6 : ℚ) < y / (oddsValidas m).sum → False := by
      intro x y t ht hsum hx hy
      have hx2 := (lt_div_iff₀ hS).mp hx
      have hy2 := (lt_div_iff₀ hS).mp hy
      linarith
    have hsum := oddsValidas_sum_eq m
    by_cases hc : 0 < m.casa.odd ∧ (0.6 : ℚ) < (1 / m.casa.odd) / (oddsValidas m).sum <;>
      by_cases he : 0 < m.empate.odd ∧ (0.6 : ℚ) < (1 / m.empate.odd) / (oddsValidas m).sum <;>
        by_cases hf : 0 < m.fora.odd ∧ (0.6 : ℚ) < (1 / m.fora.odd) / (oddsValidas m).sum
    · exfalso
      refine hpair (1 / m.casa.odd) (1 / m.empate.odd)
        (if 0 < m.fora.odd then 1 / m.fora.odd else 0) ?_ ?_ hc.2 he.2
      · split_ifs with hx
        · exact (one_div_pos.mpr hx).le
        · exact le_refl 0
      · rw [hsum, if_pos hc.1, if_pos he.1]
    · exfalso
      refine hpair (1 / m.casa.odd) (1 / m.empate.odd)
        (if 0 < m.fora.odd then 1 / m.fora.odd else 0) ?_ ?_ hc.2 he.2
      · split_ifs with hx
        · exact (one_div_pos.mpr hx).le
        · exact le_refl 0
      · rw [hsum, if_pos hc.1, if_pos he.1]
    · exfalso
      refine hpair (1 / m.casa.odd) (1 / m.fora.odd)
        (if 0 < m.empate.odd then 1 / m.empate.odd else 0) ?_ ?_ hc.2 hf.2
      · split_ifs with hx
        · exact (one_div_pos.mpr hx).le
        · exact le_refl 0
      · rw [hsum, if_pos hc.1, if_pos hf.1]; ring
    · rw [if_pos hc, if_neg he, if_neg hf]
    · exfalso
      refine hpair (1 / m.empate.odd) (1 / m.fora.odd)
        (if 0 < m.casa.odd then 1 / m.casa.odd else 0) ?_ ?_ he.2 hf.2
      · split_ifs with hx
        · exact (one_div_pos.mpr hx).le
        · exact le_refl 0
      · rw [hsum, if_pos he.1, if_pos hf.1]; ring
    · rw [if_neg hc, if_pos he, if_neg hf]
    · rw [if_neg hc, if_neg he, if_pos hf]
    · rw [if_neg hc, if_neg he, if_neg hf]
      norm_num

end BetBrasil

namespace CodeNoApi

/-- Claim C7: for valid snapshots, every market priced in both snapshots is
reported with `delta = current - previous` and direction up/down/flat by the
sign of the delta; a market missing on either side is absent from the report;
and comparing a snapshot with itself yields a zero delta and `flat` for every
shared market. -/
theorem c7_trend_deltas_and_directions (cur prev : Odds) (hc : ValidOdds cur)
    (hp : ValidOdds prev) (market : String)
    (hm : market ∈ (["home", "draw", "away"] : List String)) :
    (∀ c p, marketGet cur market = some c → marketGet prev market = some p →
        lookupTrend (analyzeTrend cur prev) market = some (c - p, trendOf (c - p)) ∧
        (trendOf (c - p) = Trend.up ↔ p < c) ∧
        (trendOf (c - p) = Trend.down ↔ c < p) ∧
        (trendOf (c - p) = Trend.flat ↔ c = p)) ∧
      ((marketGet cur market = none ∨ marketGet prev market = none) →
        lookupTrend (analyzeTrend cur prev) market = none) ∧
      lookupTrend (analyzeTrend cur cur) market =
        (marketGet cur market).map (fun _ => ((0 : ℚ), Trend.flat)) := by
  refine ⟨?_, ?_, ?_⟩
  · intro c p hcm hpm
    have hc1 : 1 < c := valid_get cur hc market hm c hcm
    have hp1 : 1 < p := valid_get prev hp market hm p hpm
    have hcz : c ≠ 0 := by linarith
    have hpz : p ≠ 0 := by linarith
    refine ⟨?_, ?_, ?_, ?_⟩
    · rw [lookupTrend_eq cur prev market hm]
      unfold trendEntry
      rw [hcm, hpm]
      simp [truthy, hcz, hpz]
    · rw [(trendOf_spec (c - p)).1, sub_pos]
    · rw [(trendOf_spec (c - p)).2.1, sub_neg]
    · rw [(trendOf_spec (c - p)).2.2, sub_eq_zero]
  · intro h
    rw [lookupTrend_eq cur prev market hm]
    unfold trendEntry
    rcases h with h | h <;> rw [h] <;> simp [truthy]
  · rw [lookupTrend_eq cur cur market hm]
    unfold trendEntry
    rcases hq : marketGet cur market with _ | q
    · simp [truthy]
    · have h1 : 1 < q := valid_get cur hc market hm q hq
      have hqz : q ≠ 0 := by linarith
      simp [truthy, hqz, trendOf]

/-- The current example snapshot satisfies the price invariant. -/
theorem snapAtual_valid : ValidOdds snapAtual := by
  refine ⟨fun q h => ?_, fun q h => ?_, fun q h => ?_⟩
  · have h2 : some (2 : ℚ) = some q := h
    injection h2 with h3
    rw [← h3]; norm_num
  · have h2 : some (3 : ℚ) = some q := h
    injection h2 with h3
    rw [← h3]; norm_num
  · exact Option.noConfusion h

/-- The previous example snapshot satisfies the price invariant. -/
theorem snapAnterior_valid : ValidOdds snapAnterior := by
  refine ⟨fun q h => ?_, fun q h => ?_, fun q h => ?_⟩
  · have h2 : some ((5 : ℚ)/2) = some q := h
    injection h2 with h3
    rw [← h3]; norm_num
  · have h2 : some (3 : ℚ) = some q := h
    injection h2 with h3
    rw [← h3]; norm_num
  · have h2 : some (4 : ℚ) = some q := h
    injection h2 with h3
    rw [← h3]; norm_num

/-- Witness for C7 on the example snapshots: the home price moved from 5/2
down to 2, and the reported direction is `down` exactly because 2 < 5/2. -/
theorem c7_trend_witness :
    lookupTrend (analyzeTrend snapAtual snapAnterior) "home" =
        some (2 - 5/2, trendOf (2 - 5/2)) ∧
      (trendOf ((2 : ℚ) - 5/2) = Trend.down ↔ (2 : ℚ) < 5/2) := by
  have h := (c7_trend_deltas_and_directions snapAtual snapAnterior snapAtual_valid
    snapAnterior_valid "home" (by decide)).1 2 (5/2) rfl rfl
  exact ⟨h.1, h.2.2.1⟩

end CodeNoApi
